import Mathlib

/-!
Verification development for the landslide remote-sensing repository.

This file shallowly embeds the pieces of the repository that the clarified
requirements talk about:

* `src/data_importer/get_newest_data.py` — the coverage-driven composite
  builder (`get_most_recent_sentinel2_auckland_ee`,
  `get_most_recent_sentinel1_auckland_ee`, `check_coverage`);
* `src/hdf5_processing/test.py` — batch patch processing
  (`process_single_patch`, `batch_process_patches`);
* `src/Model Training/cleaning_normalise.py` — `DataCleaner.robust_normalize`
  and `DataCleaner.clean_mask`.

Modelling conventions:

* An Earth-Engine image is modelled by its per-pixel values on the fixed 10 m
  sampling grid: `Image := Nat → Option ℚ`, where `none` is a masked pixel
  (values of all bands behave identically for masking/mosaicing, so one band
  value per pixel suffices; `image.select(0).mask()` is `Option.isSome`).
* Floating-point arithmetic of the hosts (EE server, numpy float32/float64) is
  idealised as exact rational arithmetic `ℚ`.
* A geometry carries the list of grid cells it contains, the per-cell value of
  `ee.Image.pixelArea()`, and the independently computed
  `geometry.area(maxError=10)` (kept as a separate field precisely because it
  is a separate, error-bounded computation in the source).
* The builders' `print` diagnostics and loop-local bookkeeping
  (`dates_used`, `tiles_used`, which exit branch was taken) are surfaced as
  fields of the result record; the Python functions return only the image
  (S2) or the `(image, metadata)` pair (S1).
-/

namespace GetNewestData

/-- A raster on the fixed sampling grid: cell index ↦ optional band-0 value
(`none` = masked). -/
abbrev Image := Nat → Option ℚ

/-- An image with no unmasked pixels (`ee.ImageCollection([]).mosaic()`). -/
def emptyImage : Image := fun _ => none

/-- Put `top` on top of `bottom`: per pixel, prefer `top`'s value when present. -/
def overlay (bottom top : Image) : Image := fun i =>
  match top i with
  | some v => some v
  | none => bottom i

/-- `ee.ImageCollection(l).mosaic()`: composites the images, the *last* image
of the collection on top. -/
def mosaic (l : List Image) : Image :=
  l.foldl (fun acc img => overlay acc img) emptyImage

/-- One catalog entry (an `ee.Image` with its filterable properties).
`footprint` is the declared footprint used by `filterBounds`; `px` are the
actual per-pixel values (masked where there is no data / clouds are masked). -/
structure EEImage where
  timeStart : Nat                -- system:time_start, ms since epoch
  cloudyPixelPercentage : ℚ      -- CLOUDY_PIXEL_PERCENTAGE
  instrumentMode : String        -- instrumentMode (Sentinel-1)
  orbitPass : String             -- orbitProperties_pass (Sentinel-1)
  footprint : List Nat           -- grid cells intersected by the declared footprint
  px : Image

/-- A region of interest: the grid cells inside it, `ee.Image.pixelArea()` per
cell, and `geometry.area(maxError=10)` (an independent, error-bounded area). -/
structure Geometry where
  cells : List Nat
  pixelArea : Nat → ℚ
  area : ℚ

/-- `check_coverage(image, geometry)` from `get_newest_data.py`: binary valid
mask of band 0, multiplied by per-pixel area, summed over the geometry
(`reduceRegion` with a sum reducer at scale 10), divided by
`geometry.area(maxError=10)`. -/
def check_coverage (image : Image) (geometry : Geometry) : ℚ :=
  let valid_mask : Nat → ℚ := fun i => if (image i).isSome then 1 else 0
  let valid_area : ℚ :=
    (geometry.cells.map (fun i => valid_mask i * geometry.pixelArea i)).sum
  valid_area / geometry.area

/-- The sum of valid-pixel areas of `image` over `geometry` (the numerator of
`check_coverage`, stated independently for specification purposes). -/
def validArea (image : Image) (geometry : Geometry) : ℚ :=
  (geometry.cells.map
    (fun i => (if (image i).isSome then 1 else 0) * geometry.pixelArea i)).sum

def msPerDay : Nat := 86400000

/-- `date_only`: the acquisition date with the time component stripped
(`ee.Date(...).format("YYYY-MM-dd")`, modelled as the day number; sorting day
numbers agrees with sorting the date strings lexicographically). -/
def date_only (img : EEImage) : Nat := img.timeStart / msPerDay

/-- Does a declared footprint intersect the geometry (`filterBounds`)? -/
def boundsIntersect (fp : List Nat) (geometry : Geometry) : Bool :=
  fp.any (fun c => geometry.cells.contains c)

/-- The Sentinel-2 catalog query of `get_most_recent_sentinel2_auckland_ee`:
`filterBounds`, `filterDate(start, end)` (day-resolution window derived from
`utcnow() - days_back`), `CLOUDY_PIXEL_PERCENTAGE < cloud_cover_max`, then
`sort("system:time_start", False)` (most recent first). -/
def s2Candidates (catalog : List EEImage) (geometry : Geometry)
    (now days_back : Nat) (cloud_cover_max : ℚ) : List EEImage :=
  let startMs := ((now - days_back * msPerDay) / msPerDay) * msPerDay
  let endMs := (now / msPerDay) * msPerDay
  List.insertionSort (fun a b => b.timeStart ≤ a.timeStart)
    (catalog.filter (fun im =>
      boundsIntersect im.footprint geometry &&
      decide (startMs ≤ im.timeStart) && decide (im.timeStart < endMs) &&
      decide (im.cloudyPixelPercentage < cloud_cover_max)))

/-- `aggregate_array("date_only").distinct().sort().reverse()`: the distinct
acquisition dates, most recent first. -/
def s2UniqueDates (cands : List EEImage) : List Nat :=
  (List.insertionSort (fun a b => a ≤ b) ((cands.map date_only).dedup)).reverse

/-- All images of one calendar date, merged by `same_day_images.mosaic()`. -/
def dayMosaic (cands : List EEImage) (d : Nat) : Image :=
  mosaic ((cands.filter (fun im => date_only im = d)).map EEImage.px)

/-- One loop iteration's composite update: `composite = day_mosaic` when the
composite is still `None`, else
`composite = ee.ImageCollection([day_mosaic, composite]).mosaic()` — exactly
the two branches of the loop body. -/
def s2Layer (cands : List EEImage) (d : Nat) (comp : Option Image) : Image :=
  match comp with
  | none => dayMosaic cands d
  | some c => mosaic [dayMosaic cands d, c]

/-- Which exit branch of `get_most_recent_sentinel2_auckland_ee` produced the
result (the function itself communicates this through prints; we surface it). -/
inductive S2Reason where
  /-- `collection_size == 0`: "No images found." early return of `None`. -/
  | noCandidates
  /-- early return inside the loop: `coverage >= coverage_threshold` with
  `require_full_coverage` set. -/
  | fullCoverage
  /-- post-loop return of the composite when `require_full_coverage` is False. -/
  | returnedAfterLoop
  /-- post-loop `return None` when `require_full_coverage` is True and the
  threshold was never met ("Could not achieve ... coverage"). -/
  | gaveUpBelowThreshold
  /-- loop never layered a group (`composite is None` after the loop). -/
  | noValidComposite
deriving DecidableEq

/-- Result of the Sentinel-2 builder: the returned image plus the diagnostics
the function prints/tracks (`dates_used`, `tiles_used`, the coverage it last
computed, and how many times `check_coverage` was called). -/
structure S2Result where
  image : Option Image
  reason : S2Reason
  datesUsed : List Nat
  tilesUsed : Nat
  coverage : Option ℚ
  coverageChecks : Nat

/-- The code after the `for` loop of `get_most_recent_sentinel2_auckland_ee`:
recompute coverage, return the composite if `require_full_coverage` is False,
otherwise warn and return `None`. -/
def s2AfterLoop (geometry : Geometry) (require_full_coverage : Bool)
    (comp : Option Image) (used : List Nat) (tiles chk : Nat) : S2Result :=
  match comp with
  | none => ⟨none, S2Reason.noValidComposite, used, tiles, none, chk⟩
  | some c =>
    let final_coverage := check_coverage c geometry
    if require_full_coverage then
      ⟨none, S2Reason.gaveUpBelowThreshold, used, tiles, some final_coverage, chk + 1⟩
    else
      ⟨some c, S2Reason.returnedAfterLoop, used, tiles, some final_coverage, chk + 1⟩

/-- The `for i, date_str in enumerate(dates_list)` loop of
`get_most_recent_sentinel2_auckland_ee`: break once `max_days_to_composite`
dates were layered; otherwise mosaic the day's tiles, overlay them *under* the
accumulated composite (`ee.ImageCollection([day_mosaic, composite]).mosaic()`
puts the existing composite, i.e. the newer data, on top), compute coverage and
return early when the threshold is met and full coverage is required. -/
def s2Loop (cands : List EEImage) (geometry : Geometry)
    (require_full_coverage : Bool) (coverage_threshold : ℚ) (maxDays : Nat) :
    List Nat → Nat → Option Image → List Nat → Nat → Nat → S2Result
  | [], _, comp, used, tiles, chk =>
    s2AfterLoop geometry require_full_coverage comp used tiles chk
  | d :: rest, i, comp, used, tiles, chk =>
    if maxDays ≤ i then
      s2AfterLoop geometry require_full_coverage comp used tiles chk
    else
      let same_day := cands.filter (fun im => date_only im = d)
      let day_mosaic := mosaic (same_day.map EEImage.px)
      let comp2 : Image :=
        match comp with
        | none => day_mosaic
        | some c => mosaic [day_mosaic, c]
      let used2 := used ++ [d]
      let tiles2 := tiles + same_day.length
      let cov := check_coverage comp2 geometry
      if require_full_coverage && decide (coverage_threshold ≤ cov) then
        ⟨some comp2, S2Reason.fullCoverage, used2, tiles2, some cov, chk + 1⟩
      else
        s2Loop cands geometry require_full_coverage coverage_threshold maxDays
          rest (i + 1) (some comp2) used2 tiles2 (chk + 1)

/-- `get_most_recent_sentinel2_auckland_ee` over a frozen catalog snapshot.
The `datetime.utcnow()` call is modelled by the explicit `now` argument. -/
def get_most_recent_sentinel2_auckland_ee (catalog : List EEImage)
    (geometry : Geometry) (now days_back : Nat) (cloud_cover_max : ℚ)
    (require_full_coverage : Bool) (coverage_threshold : ℚ)
    (max_days_to_composite : Nat) : S2Result :=
  let s2 := s2Candidates catalog geometry now days_back cloud_cover_max
  if s2.length = 0 then
    ⟨none, S2Reason.noCandidates, [], 0, none, 0⟩
  else
    s2Loop s2 geometry require_full_coverage coverage_threshold
      max_days_to_composite (s2UniqueDates s2) 0 none [] 0 0

/-- The Sentinel-1 catalog query of `get_most_recent_sentinel1_auckland_ee`:
`filterBounds`, `filterDate`, `instrumentMode` equality, sort most recent
first, then the optional `orbitProperties_pass` filter. -/
def s1Candidates (catalog : List EEImage) (geometry : Geometry)
    (now days_back : Nat) (orbit_direction instrument_mode : String) :
    List EEImage :=
  let startMs := ((now - days_back * msPerDay) / msPerDay) * msPerDay
  let endMs := (now / msPerDay) * msPerDay
  let sorted := List.insertionSort (fun a b => b.timeStart ≤ a.timeStart)
    (catalog.filter (fun im =>
      boundsIntersect im.footprint geometry &&
      decide (startMs ≤ im.timeStart) && decide (im.timeStart < endMs) &&
      decide (im.instrumentMode = instrument_mode)))
  if orbit_direction ≠ "BOTH" then
    sorted.filter (fun im => im.orbitPass = orbit_direction)
  else sorted

/-- The metadata dictionary assembled by
`get_most_recent_sentinel1_auckland_ee` (string-valued presentation entries —
image ids, band names, raw properties — are omitted from the model). -/
structure S1Metadata where
  images_used : Nat
  dates_used : List Nat
  is_composite : Bool
  coverage : ℚ
deriving DecidableEq

/-- The `for i in range(min(collection_size, max_images_to_composite))` loop of
the Sentinel-1 builder: layer the next most recent image under the accumulated
composite and break when `require_full_coverage` is set and the coverage
threshold is met. Returns the final composite, `images_used`, `dates_used`. -/
def s1Loop (geometry : Geometry) (require_full_coverage : Bool)
    (coverage_threshold : ℚ) :
    List EEImage → Option Image → Nat → List Nat →
      Option Image × Nat × List Nat
  | [], comp, used, dates => (comp, used, dates)
  | img :: rest, comp, used, dates =>
    let comp2 : Image :=
      match comp with
      | none => img.px
      | some c => mosaic [img.px, c]
    let used2 := used + 1
    let dates2 := dates ++ [img.timeStart]
    let cov := check_coverage comp2 geometry
    if require_full_coverage && decide (coverage_threshold ≤ cov) then
      (some comp2, used2, dates2)
    else
      s1Loop geometry require_full_coverage coverage_threshold rest
        (some comp2) used2 dates2

/-- `get_most_recent_sentinel1_auckland_ee` over a frozen catalog snapshot:
returns `(None, None)` when the query is empty or no composite was built,
otherwise `(composite, metadata)` — also when the coverage threshold was not
reached. -/
def get_most_recent_sentinel1_auckland_ee (catalog : List EEImage)
    (geometry : Geometry) (now days_back : Nat)
    (orbit_direction instrument_mode : String)
    (require_full_coverage : Bool) (coverage_threshold : ℚ)
    (max_images_to_composite : Nat) : Option Image × Option S1Metadata :=
  let s1 := s1Candidates catalog geometry now days_back orbit_direction
    instrument_mode
  if s1.length = 0 then (none, none)
  else
    let image_list := s1.take (min s1.length max_images_to_composite)
    let r := s1Loop geometry require_full_coverage coverage_threshold
      image_list none 0 []
    let comp := r.1
    let metadata : S1Metadata :=
      ⟨r.2.1, r.2.2, decide (1 < r.2.1),
        match comp with
        | some c => check_coverage c geometry
        | none => 0⟩
    match comp with
    | some c => (some c, some metadata)
    | none => (none, none)

end GetNewestData

namespace HDF5Test

/-- `process_single_patch` from `src/hdf5_processing/test.py`. The body's
effects (building the geometry, querying EE, exporting to HDF5) are abstracted
into `downloadOutcome`: `Except.error e` stands for any exception raised while
processing this patch. The worker's `try/except` turns the outcome into the
`(index, success, message)` result tuple and never re-raises. -/
def process_single_patch (downloadOutcome : Except String Unit) (index : Nat) :
    Nat × Bool × String :=
  match downloadOutcome with
  | Except.ok _ => (index, true, "✓ Patch " ++ toString index)
  | Except.error e => (index, false, "✗ Patch " ++ toString index ++ ": " ++ e)

/-- What `batch_process_patches` accumulates: the collected result tuples and
the `completed` / `failed` counters. -/
structure BatchResult where
  results : List (Nat × Bool × String)
  completed : Nat
  failed : Nat
deriving DecidableEq

/-- `batch_process_patches` from `src/hdf5_processing/test.py`: submit
`process_single_patch` for every enumerated feature and tally successes and
failures. The thread pool's `as_completed` collection order is modelled by
submission order; the completed/failed tallies are order-independent counts. -/
def batch_process_patches (outcomes : List (Except String Unit)) : BatchResult :=
  let results := outcomes.enum.map (fun p => process_single_patch p.2 p.1)
  ⟨results, results.countP (fun r => r.2.1), results.countP (fun r => !r.2.1)⟩

end HDF5Test

namespace CleaningNormalise

/-!
Model of `DataCleaner` from `src/Model Training/cleaning_normalise.py`.

A numpy value that may be non-finite is `Option ℚ` (`none` = NaN/±Inf); finite
arithmetic is exact `ℚ`. For `robust_normalize` an array is represented
channels-last as `List (List ℚvalue)`: with `axis = false` (numpy
`axis=None`) the whole array is normalized over its flattened values, with
`axis = true` each outer entry is one channel (the effect of
`np.moveaxis(arr, axis, -1)`).
-/

/-- `arr.astype(np.float32)` followed by `arr_clean[~np.isfinite(arr_clean)] =
0.0`: every non-finite entry becomes `0`. -/
def cleanVals (l : List (Option ℚ)) : List ℚ := l.map (fun x => x.getD 0)

/-- `np.min` of a nonempty array (`0` for the empty array, which the callers
guard against). -/
def npMin : List ℚ → ℚ
  | [] => 0
  | x :: xs => xs.foldl min x

/-- `np.max` of a nonempty array (`0` for the empty array). -/
def npMax : List ℚ → ℚ
  | [] => 0
  | x :: xs => xs.foldl max x

/-- `np.percentile(l, q)` with the default linear interpolation: index
`q/100 * (n-1)` into the sorted data, interpolating between the neighbouring
entries. (numpy raises on an empty array; this total model returns `0` there —
the branch is reachable only for empty inputs, where the surrounding maps
produce empty outputs anyway.) -/
def npPercentile (l : List ℚ) (q : ℚ) : ℚ :=
  let s := List.insertionSort (fun a b => a ≤ b) l
  let n := s.length
  let pos : ℚ := q / 100 * ((n : ℚ) - 1)
  let lo : Nat := Int.toNat ⌊pos⌋
  let hi : Nat := Int.toNat ⌈pos⌉
  let frac : ℚ := pos - (⌊pos⌋ : ℚ)
  s.getD lo 0 + frac * (s.getD hi 0 - s.getD lo 0)

/-- `np.clip(x, lower, upper)` = `minimum(upper, maximum(lower, x))`. -/
def clipQ (x lower upper : ℚ) : ℚ := min (max x lower) upper

/-- The IQR outlier bounds of `robust_normalize` (`method='iqr'`): Tukey
fences `q1 - 1.5·iqr`, `q3 + 1.5·iqr` when `iqr > 0`, otherwise the data
min/max widened to a unit interval when degenerate. -/
def iqrBounds (valid : List ℚ) : ℚ × ℚ :=
  let q1 := npPercentile valid 25
  let q3 := npPercentile valid 75
  let iqr := q3 - q1
  if 0 < iqr then (q1 - 3/2 * iqr, q3 + 3/2 * iqr)
  else
    let lower := npMin valid
    let upper := npMax valid
    if upper = lower then (lower, lower + 1) else (lower, upper)

/-- The percentile clipping bounds of `robust_normalize`
(`method='percentile'`): the 1st and 99th percentiles, the upper bound nudged
by `1e-6` when degenerate. -/
def pctBounds (valid : List ℚ) : ℚ × ℚ :=
  let lower := npPercentile valid 1
  let upper := npPercentile valid 99
  if upper ≤ lower then (lower, lower + 1/1000000) else (lower, upper)

/-- Clip to `[lower, upper]` and rescale:
`(np.clip(x, lower, upper) - lower) / (upper - lower + eps)`
(`eps = 1e-8` on the IQR path, `0` on the percentile path). -/
def rescale (lower upper eps x : ℚ) : ℚ :=
  (clipQ x lower upper - lower) / (upper - lower + eps)

/-- `DataCleaner.robust_normalize` (array component of the returned pair; the
`stats_dict` of float diagnostics — means, stds — is presentation-only and not
modelled). `axis = false` is numpy `axis=None`; `method` is one of
`"iqr"`, `"percentile"`, or anything else for the min-max fallback. The final
`astype(np.float32)` is the identity in the exact-rational model. -/
def robust_normalize (arr : List (List (Option ℚ))) (axis : Bool)
    (method : String) : List (List ℚ) :=
  let arr_clean : List (List ℚ) := arr.map cleanVals
  if method = "iqr" then
    if axis = false then
      let valid := arr_clean.flatten
      if 0 < valid.length then
        let b := iqrBounds valid
        arr_clean.map (List.map (rescale b.1 b.2 (1/100000000)))
      else arr_clean
    else
      arr_clean.map (fun chan =>
        if 0 < chan.length then
          let b := iqrBounds chan
          chan.map (rescale b.1 b.2 (1/100000000))
        else chan)
  else if method = "percentile" then
    if axis = false then
      let valid := arr_clean.flatten
      if 0 < valid.length then
        let b := pctBounds valid
        arr_clean.map (List.map (rescale b.1 b.2 0))
      else arr_clean
    else
      arr_clean.map (fun chan =>
        let b := pctBounds chan
        chan.map (rescale b.1 b.2 0))
  else
    if axis = false then
      let valid := arr_clean.flatten
      let mn := npMin valid
      let mx := npMax valid
      if mn < mx then arr_clean.map (List.map (fun x => (x - mn) / (mx - mn)))
      else arr_clean.map (List.map (fun x => x - mn))
    else arr_clean

/-! Model of `DataCleaner.clean_mask`. A 2-D boolean raster is
`List (List Bool)`; all scipy morphology is reimplemented concretely: square
structuring elements with origin at the centre and `border_value = 0`
(scipy's defaults as called here), 4-connectivity for `ndi.label` and
`binary_fill_holes` (their default `generate_binary_structure(2, 1)`). -/

abbrev BMat := List (List Bool)

/-- Build an `h × w` boolean matrix from an index function. -/
def mkMat (h w : Nat) (f : Nat → Nat → Bool) : BMat :=
  (List.range h).map (fun i => (List.range w).map (fun j => f i j))

/-- Read a matrix entry; out-of-bounds reads are `false` (the
`border_value = 0` convention of the scipy calls being modelled). -/
def mget (m : BMat) (i j : Int) : Bool :=
  if 0 ≤ i ∧ 0 ≤ j then (m.getD i.toNat []).getD j.toNat false else false

def mgetP (m : BMat) (p : Nat × Nat) : Bool := mget m p.1 p.2

/-- Offsets of a size-`s` square structuring element with scipy's origin
convention (centre at `s / 2`). -/
def offsets (s : Nat) : List Int :=
  (List.range s).map (fun d => (d : Int) - ((s / 2 : Nat) : Int))

/-- `ndi.binary_erosion` with an `s × s` ones structure, `border_value = 0`. -/
def erode (h w s : Nat) (m : BMat) : BMat :=
  mkMat h w (fun i j =>
    (offsets s).all (fun di => (offsets s).all (fun dj =>
      mget m ((i : Int) + di) ((j : Int) + dj))))

/-- `ndi.binary_dilation` with an `s × s` ones structure, `border_value = 0`
(the structure is mirrored, which also matches scipy's even-size origin
adjustment). -/
def dilate (h w s : Nat) (m : BMat) : BMat :=
  mkMat h w (fun i j =>
    (offsets s).any (fun di => (offsets s).any (fun dj =>
      mget m ((i : Int) - di) ((j : Int) - dj))))

/-- All cell coordinates of an `h × w` grid. -/
def cells (h w : Nat) : List (Nat × Nat) :=
  (List.range h).flatMap (fun i => (List.range w).map (fun j => (i, j)))

/-- 4-connectivity (`generate_binary_structure(2, 1)`). -/
def adjacent (p q : Nat × Nat) : Bool :=
  decide ((((p.1 : Int) - (q.1 : Int)).natAbs +
    ((p.2 : Int) - (q.2 : Int)).natAbs) = 1)

/-- One expansion step of 4-connected reachability inside the cells where `m`
holds. -/
def reachStep (h w : Nat) (m : BMat) (s : List (Nat × Nat)) :
    List (Nat × Nat) :=
  (cells h w).filter (fun p =>
    mgetP m p && (s.contains p || s.any (fun q => adjacent p q)))

/-- Iterated expansion; `h * w` steps reach the fixpoint on an `h × w` grid. -/
def reach (h w : Nat) (m : BMat) : Nat → List (Nat × Nat) → List (Nat × Nat)
  | 0, s => s
  | n + 1, s => reach h w m n (reachStep h w m s)

/-- The 4-connected component of `p` inside `m`, as scipy's `ndi.label`
partitions the foreground. -/
def component (h w : Nat) (m : BMat) (p : Nat × Nat) : List (Nat × Nat) :=
  reach h w m (h * w) [p]

/-- `np.bincount(labeled.ravel())` at the label of `p`: the size of `p`'s
component. -/
def componentSize (h w : Nat) (m : BMat) (p : Nat × Nat) : Nat :=
  (component h w m p).length

/-- `DataCleaner.clean_mask`. `dtypeIsFloatOrComplex` models
`mask.dtype.kind in 'fc'` (binarization threshold `> 0.5` for float dtypes,
`> 0` otherwise); `min_object_ratio` as in the source. The steps are
binarization, adaptive opening, component-size filtering via
`keep_mask[labeled]` (note `keep_mask[0] = True` maps the background to
`True`), hole filling, 3×3 closing, and the final `astype(np.uint8)`. -/
def clean_mask (mask : List (List ℚ)) (dtypeIsFloatOrComplex : Bool)
    (min_object_ratio : ℚ) : List (List Nat) :=
  let h := mask.length
  let w := (mask.headD []).length
  let mask_binary : BMat := mkMat h w (fun i j =>
    let v := (mask.getD i []).getD j 0
    if dtypeIsFloatOrComplex then decide ((1 : ℚ)/2 < v) else decide (0 < v))
  let total_pixels := h * w
  let min_size := max (Int.toNat ⌊(total_pixels : ℚ) * min_object_ratio⌋) 10
  let struct_size := min 5 (max 3 (Nat.sqrt (h * h + w * w) / 200))
  let mask_opened := dilate h w struct_size (erode h w struct_size mask_binary)
  let mask_cleaned : BMat :=
    if (cells h w).any (fun p => mgetP mask_opened p) then
      mkMat h w (fun i j =>
        if mgetP mask_opened (i, j) then
          decide (min_size ≤ componentSize h w mask_opened (i, j))
        else true)
    else mask_opened
  let notCleaned : BMat := mkMat h w (fun i j => !(mgetP mask_cleaned (i, j)))
  let borderSeeds := (cells h w).filter (fun p =>
    mgetP notCleaned p &&
      (p.1 == 0 || p.1 == h - 1 || p.2 == 0 || p.2 == w - 1))
  let outside := reach h w notCleaned (h * w) borderSeeds
  let mask_filled : BMat := mkMat h w (fun i j =>
    mgetP mask_cleaned (i, j) || !(outside.contains (i, j)))
  let mask_final := erode h w 3 (dilate h w 3 mask_filled)
  mask_final.map (List.map (fun b => if b then 1 else 0))

end CleaningNormalise

/-! ## Theorems about the coverage-driven composite builder -/

namespace GetNewestData

theorem mosaic_pair_eq (g c : Image) (i : Nat) :
    mosaic [g, c] i = match c i with
      | some v => some v
      | none => g i := by
  cases hc : c i with
  | none => cases hg : g i <;> simp [mosaic, overlay, emptyImage, hc, hg]
  | some v => simp [mosaic, overlay, emptyImage, hc]

/-- C2: layering is strictly newest-wins — the loop update
`ee.ImageCollection([day_mosaic, composite]).mosaic()` never changes a pixel
already set in the accumulated (newer) composite, and consequently the
coverage of the composite over any region never decreases when an older group
is layered on. -/
theorem newestWins_and_coverage_monotone (g c : Image) (geometry : Geometry)
    (hA : ∀ i ∈ geometry.cells, 0 ≤ geometry.pixelArea i)
    (hpos : 0 < geometry.area) :
    (∀ i, (c i).isSome → mosaic [g, c] i = c i) ∧
    check_coverage c geometry ≤ check_coverage (mosaic [g, c]) geometry := by
  constructor
  · intro i h
    cases hc : c i with
    | none => rw [hc] at h; simp at h
    | some v => simp [mosaic, overlay, emptyImage, hc]
  · have hsum : ∀ i ∈ geometry.cells,
        (if (c i).isSome then (1 : ℚ) else 0) * geometry.pixelArea i ≤
        (if ((mosaic [g, c]) i).isSome then (1 : ℚ) else 0) *
          geometry.pixelArea i := by
      intro i hi
      have h0 : (0 : ℚ) ≤ geometry.pixelArea i := hA i hi
      cases hc : c i with
      | some v => simp [mosaic, overlay, emptyImage, hc]
      | none =>
        by_cases hm : ((mosaic [g, c]) i).isSome <;> simp [hc, hm, h0]
    have hle := List.sum_le_sum hsum
    simp only [check_coverage]
    gcongr

theorem s2AfterLoop_datesUsed (geometry : Geometry) (rf : Bool)
    (comp : Option Image) (used : List Nat) (tiles chk : Nat) :
    (s2AfterLoop geometry rf comp used tiles chk).datesUsed = used := by
  cases comp with
  | none => rfl
  | some c => by_cases h : rf <;> simp [s2AfterLoop, h]

theorem s2Loop_datesUsed_le (cands : List EEImage) (geometry : Geometry)
    (rf : Bool) (th : ℚ) (maxD : Nat) :
    ∀ (dates : List Nat) (i : Nat) (comp : Option Image) (used : List Nat)
      (tiles chk : Nat),
      (s2Loop cands geometry rf th maxD dates i comp used tiles
        chk).datesUsed.length ≤ used.length + (maxD - i) := by
  intro dates
  induction dates with
  | nil =>
    intro i comp used tiles chk
    simp [s2Loop, s2AfterLoop_datesUsed]
  | cons d rest ih =>
    intro i comp used tiles chk
    simp only [s2Loop]
    split
    · simp [s2AfterLoop_datesUsed]
    · split
      · simp; omega
      · exact le_trans (ih (i + 1) _ _ _ _) (by simp; omega)

theorem s1Loop_used_le (geometry : Geometry) (rf : Bool) (th : ℚ) :
    ∀ (l : List EEImage) (comp : Option Image) (used : Nat)
      (dates : List Nat),
      (s1Loop geometry rf th l comp used dates).2.1 ≤ used + l.length := by
  intro l
  induction l with
  | nil => intro comp used dates; simp [s1Loop]
  | cons img rest ih =>
    intro comp used dates
    simp only [s1Loop]
    split
    · simp
    · exact le_trans (ih _ _ _) (by simp; omega)

end GetNewestData

namespace GetNewestData

/-- C3: the composite returned by either builder is built from at most
`max_groups` candidate groups — the Sentinel-2 builder layers at most
`max_days_to_composite` distinct dates (`dates_used`), and the Sentinel-1
builder's returned metadata reports `images_used ≤ max_images_to_composite`
(read as `0` when no metadata is returned). -/
theorem composite_group_budget (catalog : List EEImage) (geometry : Geometry)
    (now days_back : Nat) (cloud_cover_max : ℚ) (rf : Bool) (th : ℚ)
    (maxD : Nat) (od im : String) (rf1 : Bool) (th1 : ℚ) (maxI : Nat) :
    (get_most_recent_sentinel2_auckland_ee catalog geometry now days_back
      cloud_cover_max rf th maxD).datesUsed.length ≤ maxD ∧
    ((get_most_recent_sentinel1_auckland_ee catalog geometry now days_back
      od im rf1 th1 maxI).2.map S1Metadata.images_used).getD 0 ≤ maxI := by
  constructor
  · simp only [get_most_recent_sentinel2_auckland_ee]
    split
    · simp
    · simpa using s2Loop_datesUsed_le
        (s2Candidates catalog geometry now days_back cloud_cover_max) geometry
        rf th maxD
        (s2UniqueDates (s2Candidates catalog geometry now days_back
          cloud_cover_max)) 0 none [] 0 0
  · simp only [get_most_recent_sentinel1_auckland_ee]
    split
    · simp
    · set s1 := s1Candidates catalog geometry now days_back od im with hs1
      set L := s1.take (min s1.length maxI) with hL
      set r := s1Loop geometry rf1 th1 L none 0 [] with hr
      rcases hc : r.1 with _ | c
      · simp [hc]
      · have h1 : r.2.1 ≤ 0 + L.length := s1Loop_used_le geometry rf1 th1 L none 0 []
        have h2 : L.length ≤ maxI := by
          rw [hL]; simp [List.length_take]
        simp [hc]
        omega

/-- C4: when the initial catalog query returns zero candidates, both builders
return `None` at once — the Sentinel-2 builder with the `no_candidates`
diagnostic, an empty `dates_used` and zero coverage computations, the
Sentinel-1 builder as `(None, None)` — independent of every other parameter. -/
theorem no_candidates_result (catalog : List EEImage) (geometry : Geometry)
    (now days_back : Nat) (cloud_cover_max : ℚ) (rf : Bool) (th : ℚ)
    (maxD : Nat) (od im : String) (rf1 : Bool) (th1 : ℚ) (maxI : Nat)
    (h2 : s2Candidates catalog geometry now days_back cloud_cover_max = [])
    (h1 : s1Candidates catalog geometry now days_back od im = []) :
    get_most_recent_sentinel2_auckland_ee catalog geometry now days_back
      cloud_cover_max rf th maxD
      = ⟨none, S2Reason.noCandidates, [], 0, none, 0⟩ ∧
    get_most_recent_sentinel1_auckland_ee catalog geometry now days_back
      od im rf1 th1 maxI = (none, none) := by
  constructor
  · simp [get_most_recent_sentinel2_auckland_ee, h2]
  · simp [get_most_recent_sentinel1_auckland_ee, h1]

/-- Witness for C4 at a concrete empty catalog. -/
theorem no_candidates_result_witness :
    get_most_recent_sentinel2_auckland_ee [] ⟨[0], fun _ => 1, 1⟩ 864000000 10
      30 true (19/20) 14 = ⟨none, S2Reason.noCandidates, [], 0, none, 0⟩ ∧
    get_most_recent_sentinel1_auckland_ee [] ⟨[0], fun _ => 1, 1⟩ 864000000 10
      "BOTH" "IW" true (19/20) 5 = (none, none) :=
  no_candidates_result [] ⟨[0], fun _ => 1, 1⟩ 864000000 10 30 true (19/20) 14
    "BOTH" "IW" true (19/20) 5 rfl rfl

end GetNewestData

namespace GetNewestData

theorem s2Loop_not_required (cands : List EEImage) (geometry : Geometry)
    (th : ℚ) (maxD : Nat) :
    ∀ (dates : List Nat) (i : Nat) (comp : Option Image) (used : List Nat)
      (tiles chk : Nat), (comp.isSome ∨ (dates ≠ [] ∧ i < maxD)) →
      (s2Loop cands geometry false th maxD dates i comp used tiles
        chk).image.isSome ∧
      (s2Loop cands geometry false th maxD dates i comp used tiles
        chk).reason = S2Reason.returnedAfterLoop := by
  intro dates
  induction dates with
  | nil =>
    intro i comp used tiles chk h
    rcases h with h | ⟨hne, _⟩
    · rcases comp with _ | c
      · simp at h
      · simp [s2Loop, s2AfterLoop]
    · exact absurd rfl hne
  | cons d rest ih =>
    intro i comp used tiles chk h
    simp only [s2Loop]
    split
    · rcases h with h | ⟨_, hlt⟩
      · rcases comp with _ | c
        · simp at h
        · simp [s2AfterLoop]
      · omega
    · split
      · next hcond => simp at hcond
      · exact ih (i + 1) _ _ _ _ (Or.inl (by simp))

theorem s1Loop_image_isSome (geometry : Geometry) (rf : Bool) (th : ℚ) :
    ∀ (l : List EEImage) (comp : Option Image) (used : Nat)
      (dates : List Nat), (comp.isSome ∨ l ≠ []) →
      ((s1Loop geometry rf th l comp used dates).1).isSome := by
  intro l
  induction l with
  | nil =>
    intro comp used dates h
    rcases h with h | hne
    · simpa [s1Loop] using h
    · exact absurd rfl hne
  | cons img rest ih =>
    intro comp used dates _
    simp only [s1Loop]
    split
    · simp
    · exact ih _ _ _ (Or.inl (by simp))

theorem s2UniqueDates_ne_nil (cands : List EEImage) (h : cands ≠ []) :
    s2UniqueDates cands ≠ [] := by
  simp only [s2UniqueDates]
  intro hcon
  rw [List.reverse_eq_nil_iff] at hcon
  have hperm := List.perm_insertionSort (fun a b => a ≤ b)
    ((cands.map date_only).dedup)
  rw [hcon] at hperm
  have hd : (cands.map date_only).dedup = [] := hperm.symm.eq_nil
  rw [List.dedup_eq_nil, List.map_eq_nil_iff] at hd
  exact h hd

/-- C1 counterexample: a non-empty catalog (one image covering half the
region) for which the coverage threshold is never met and one group *was*
composited, yet the Sentinel-2 builder (with its default
`require_full_coverage=True`) returns `None` rather than the partial
composite: coverage reached `1/2 < 19/20` on the single date layered and the
result image is `none` with the give-up diagnostic. -/
theorem soft_failure_counterexample :
    (get_most_recent_sentinel2_auckland_ee
        [⟨432000001, 0, "IW", "ASCENDING", [0],
          fun i => if i = 0 then some 1 else none⟩]
        ⟨[0, 1], fun _ => 1, 2⟩ 864000000 10 30 true (19/20) 14).image.isSome
      = false ∧
    (get_most_recent_sentinel2_auckland_ee
        [⟨432000001, 0, "IW", "ASCENDING", [0],
          fun i => if i = 0 then some 1 else none⟩]
        ⟨[0, 1], fun _ => 1, 2⟩ 864000000 10 30 true (19/20) 14).datesUsed
      = [5] ∧
    (get_most_recent_sentinel2_auckland_ee
        [⟨432000001, 0, "IW", "ASCENDING", [0],
          fun i => if i = 0 then some 1 else none⟩]
        ⟨[0, 1], fun _ => 1, 2⟩ 864000000 10 30 true (19/20) 14).coverage
      = some (1/2) ∧
    (get_most_recent_sentinel2_auckland_ee
        [⟨432000001, 0, "IW", "ASCENDING", [0],
          fun i => if i = 0 then some 1 else none⟩]
        ⟨[0, 1], fun _ => 1, 2⟩ 864000000 10 30 true (19/20) 14).reason
      = S2Reason.gaveUpBelowThreshold := by
  refine ⟨?_, ?_, ?_, ?_⟩ <;> with_unfolding_all decide

/-- C1 (amended): when the loop ends without reaching the threshold but at
least one group was composited, the partial composite and diagnostics are
returned by the Sentinel-1 builder, and by the Sentinel-2 builder only when
`require_full_coverage` is False (the Sentinel-2 builder returns `None` when
`require_full_coverage` is True, as the counterexample shows). -/
theorem soft_failure_returns_composite (catalog : List EEImage)
    (geometry : Geometry) (now days_back : Nat) (cloud_cover_max : ℚ)
    (th : ℚ) (maxD : Nat) (od im : String) (rf1 : Bool) (th1 : ℚ) (maxI : Nat)
    (h2ne : s2Candidates catalog geometry now days_back cloud_cover_max ≠ [])
    (hmaxD : 1 ≤ maxD)
    (h1ne : s1Candidates catalog geometry now days_back od im ≠ [])
    (hmaxI : 1 ≤ maxI) :
    ((get_most_recent_sentinel2_auckland_ee catalog geometry now days_back
        cloud_cover_max false th maxD).image.isSome ∧
      (get_most_recent_sentinel2_auckland_ee catalog geometry now days_back
        cloud_cover_max false th maxD).reason = S2Reason.returnedAfterLoop) ∧
    ((get_most_recent_sentinel1_auckland_ee catalog geometry now days_back
        od im rf1 th1 maxI).1.isSome ∧
      (get_most_recent_sentinel1_auckland_ee catalog geometry now days_back
        od im rf1 th1 maxI).2.isSome) := by
  constructor
  · simp only [get_most_recent_sentinel2_auckland_ee]
    split
    · next hlen =>
      exact absurd (List.length_eq_zero.mp hlen) h2ne
    · exact s2Loop_not_required _ geometry th maxD _ 0 none [] 0 0
        (Or.inr ⟨s2UniqueDates_ne_nil _ h2ne, hmaxD⟩)
  · simp only [get_most_recent_sentinel1_auckland_ee]
    split
    · next hlen =>
      exact absurd (List.length_eq_zero.mp hlen) h1ne
    · next hlen =>
      set s1 := s1Candidates catalog geometry now days_back od im with hs1
      set L := s1.take (min s1.length maxI) with hL
      have hLne : L ≠ [] := by
        have hpos : 0 < s1.length := by
          rcases Nat.eq_zero_or_pos s1.length with h0 | h0
          · exact absurd h0 hlen
          · exact h0
        have : 0 < L.length := by
          rw [hL]; simp [List.length_take]; omega
        exact List.ne_nil_of_length_pos this
      have hsome := s1Loop_image_isSome geometry rf1 th1 L none 0 []
        (Or.inr hLne)
      rcases hc : (s1Loop geometry rf1 th1 L none 0 []).1 with _ | c
      · rw [hc] at hsome; simp at hsome
      · simp [hc]

/-- Witness for C1 (amended) at a concrete one-image catalog. -/
theorem soft_failure_returns_composite_witness :
    ((get_most_recent_sentinel2_auckland_ee
        [⟨432000001, 0, "IW", "ASCENDING", [0],
          fun i => if i = 0 then some 1 else none⟩]
        ⟨[0, 1], fun _ => 1, 2⟩ 864000000 10 30 false (19/20) 14).image.isSome ∧
      (get_most_recent_sentinel2_auckland_ee
        [⟨432000001, 0, "IW", "ASCENDING", [0],
          fun i => if i = 0 then some 1 else none⟩]
        ⟨[0, 1], fun _ => 1, 2⟩ 864000000 10 30 false (19/20) 14).reason
        = S2Reason.returnedAfterLoop) ∧
    ((get_most_recent_sentinel1_auckland_ee
        [⟨432000001, 0, "IW", "ASCENDING", [0],
          fun i => if i = 0 then some 1 else none⟩]
        ⟨[0, 1], fun _ => 1, 2⟩ 864000000 10 "BOTH" "IW" true (19/20)
        5).1.isSome ∧
      (get_most_recent_sentinel1_auckland_ee
        [⟨432000001, 0, "IW", "ASCENDING", [0],
          fun i => if i = 0 then some 1 else none⟩]
        ⟨[0, 1], fun _ => 1, 2⟩ 864000000 10 "BOTH" "IW" true (19/20)
        5).2.isSome) :=
  soft_failure_returns_composite
    [⟨432000001, 0, "IW", "ASCENDING", [0],
      fun i => if i = 0 then some 1 else none⟩]
    ⟨[0, 1], fun _ => 1, 2⟩ 864000000 10 30 (19/20) 14 "BOTH" "IW" true
    (19/20) 5
    (fun h =>
      absurd (congrArg List.length h) (by with_unfolding_all decide))
    (by decide)
    (fun h =>
      absurd (congrArg List.length h) (by with_unfolding_all decide))
    (by decide)

end GetNewestData

namespace GetNewestData

/-- Witness for C2 at a concrete older group and composite. -/
theorem newestWins_and_coverage_monotone_witness :
    (∀ i, ((fun j => if j = 1 then some (5 : ℚ) else none) i).isSome →
      mosaic [fun _ => some (3 : ℚ),
        fun j => if j = 1 then some (5 : ℚ) else none] i
        = (fun j => if j = 1 then some (5 : ℚ) else none) i) ∧
    check_coverage (fun j => if j = 1 then some (5 : ℚ) else none)
        ⟨[0, 1], fun _ => 1, 2⟩ ≤
      check_coverage
        (mosaic [fun _ => some (3 : ℚ),
          fun j => if j = 1 then some (5 : ℚ) else none])
        ⟨[0, 1], fun _ => 1, 2⟩ :=
  newestWins_and_coverage_monotone (fun _ => some 3)
    (fun j => if j = 1 then some 5 else none) ⟨[0, 1], fun _ => 1, 2⟩
    (by intro i _; norm_num) (by norm_num)

/-- C5 counterexample: with `require_full_coverage=False` the loop does *not*
return as soon as the threshold is met — here the most recent date alone
reaches coverage `1 ≥ 19/20`, yet the builder layers both available dates
(`dates_used = [6, 5]`) and only returns after the loop. -/
theorem threshold_early_exit_counterexample :
    (19/20 : ℚ) ≤ check_coverage
      (dayMosaic (s2Candidates
        [⟨518400000, 0, "IW", "ASCENDING", [0], fun _ => some 1⟩,
         ⟨432000000, 0, "IW", "ASCENDING", [0], fun _ => some 2⟩]
        ⟨[0], fun _ => 1, 1⟩ 864000000 10 30) 6) ⟨[0], fun _ => 1, 1⟩ ∧
    (get_most_recent_sentinel2_auckland_ee
        [⟨518400000, 0, "IW", "ASCENDING", [0], fun _ => some 1⟩,
         ⟨432000000, 0, "IW", "ASCENDING", [0], fun _ => some 2⟩]
        ⟨[0], fun _ => 1, 1⟩ 864000000 10 30 false (19/20) 14).datesUsed
      = [6, 5] ∧
    (get_most_recent_sentinel2_auckland_ee
        [⟨518400000, 0, "IW", "ASCENDING", [0], fun _ => some 1⟩,
         ⟨432000000, 0, "IW", "ASCENDING", [0], fun _ => some 2⟩]
        ⟨[0], fun _ => 1, 1⟩ 864000000 10 30 false (19/20) 14).reason
      = S2Reason.returnedAfterLoop := by
  refine ⟨?_, ?_, ?_⟩ <;> with_unfolding_all decide

theorem s2AfterLoop_reason_ne_full (geometry : Geometry) (rf : Bool)
    (comp : Option Image) (used : List Nat) (tiles chk : Nat) :
    (s2AfterLoop geometry rf comp used tiles chk).reason
      ≠ S2Reason.fullCoverage := by
  cases comp with
  | none => simp [s2AfterLoop]
  | some c =>
    by_cases h : rf
    · simp [s2AfterLoop, h]
    · simp [s2AfterLoop, h]

theorem s2Loop_reason_ne_full_not_required (cands : List EEImage)
    (geometry : Geometry) (th : ℚ) (maxD : Nat) :
    ∀ (dates : List Nat) (i : Nat) (comp : Option Image) (used : List Nat)
      (tiles chk : Nat),
      (s2Loop cands geometry false th maxD dates i comp used tiles chk).reason
        ≠ S2Reason.fullCoverage := by
  intro dates
  induction dates with
  | nil =>
    intro i comp used tiles chk
    simp only [s2Loop]
    exact s2AfterLoop_reason_ne_full geometry false comp used tiles chk
  | cons d rest ih =>
    intro i comp used tiles chk
    simp only [s2Loop]
    split
    · exact s2AfterLoop_reason_ne_full geometry false comp used tiles chk
    · split
      · next hcond => simp at hcond
      · exact ih (i + 1) _ _ _ _

theorem s2Loop_step_exit (cands : List EEImage) (geometry : Geometry)
    (th : ℚ) (maxD d : Nat) (rest : List Nat) (i : Nat) (comp : Option Image)
    (used : List Nat) (tiles chk : Nat) (hi : i < maxD)
    (h1 : th ≤ check_coverage (s2Layer cands d comp) geometry) :
    s2Loop cands geometry true th maxD (d :: rest) i comp used tiles chk
      = ⟨some (s2Layer cands d comp), S2Reason.fullCoverage, used ++ [d],
          tiles + (cands.filter (fun im => date_only im = d)).length,
          some (check_coverage (s2Layer cands d comp) geometry),
          chk + 1⟩ := by
  rcases comp with _ | c
  all_goals
    simp only [s2Layer, dayMosaic] at h1 ⊢
    simp only [s2Loop]
    rw [if_neg (by omega : ¬ (maxD ≤ i))]
    split
    · rfl
    · next hcond =>
      exact absurd (by simp only [Bool.true_and, decide_eq_true_eq]; exact h1)
        hcond

theorem s2Loop_step_continue (cands : List EEImage) (geometry : Geometry)
    (rf : Bool) (th : ℚ) (maxD d : Nat) (rest : List Nat) (i : Nat)
    (comp : Option Image) (used : List Nat) (tiles chk : Nat) (hi : i < maxD)
    (h : rf = false ∨ check_coverage (s2Layer cands d comp) geometry < th) :
    s2Loop cands geometry rf th maxD (d :: rest) i comp used tiles chk
      = s2Loop cands geometry rf th maxD rest (i + 1)
          (some (s2Layer cands d comp)) (used ++ [d])
          (tiles + (cands.filter (fun im => date_only im = d)).length)
          (chk + 1) := by
  rcases comp with _ | c
  all_goals
    simp only [s2Layer, dayMosaic] at h ⊢
    simp only [s2Loop]
    rw [if_neg (by omega : ¬ (maxD ≤ i))]
    split
    · next hcond =>
      exfalso
      rcases h with rfl | hlt
      · simp at hcond
      · simp only [Bool.and_eq_true, decide_eq_true_eq] at hcond
        exact absurd hcond.2 (not_le.mpr hlt)
    · rfl

/-- C5 (amended): with `require_full_coverage` True, the loop returns
immediately — at *any* iteration — as soon as the group just layered brings
coverage to the threshold, and otherwise continues to the next date; with
`require_full_coverage` False the iteration still computes coverage (the
coverage-check counter increments) but always continues, and no run of the
builder ever exits with the full-coverage early return; in the scenario where
the most recent group alone meets the threshold, exactly one group is used and
the loop exits at iteration 1. -/
theorem threshold_early_exit (cands catalog : List EEImage)
    (geometry : Geometry) (now days_back : Nat) (cloud_cover_max th : ℚ)
    (maxD i d : Nat) (rest : List Nat) (comp : Option Image)
    (used : List Nat) (tiles chk : Nat) (hi : i < maxD) :
    (th ≤ check_coverage (s2Layer cands d comp) geometry →
      s2Loop cands geometry true th maxD (d :: rest) i comp used tiles chk
        = ⟨some (s2Layer cands d comp), S2Reason.fullCoverage, used ++ [d],
            tiles + (cands.filter (fun im => date_only im = d)).length,
            some (check_coverage (s2Layer cands d comp) geometry),
            chk + 1⟩) ∧
    (check_coverage (s2Layer cands d comp) geometry < th →
      s2Loop cands geometry true th maxD (d :: rest) i comp used tiles chk
        = s2Loop cands geometry true th maxD rest (i + 1)
            (some (s2Layer cands d comp)) (used ++ [d])
            (tiles + (cands.filter (fun im => date_only im = d)).length)
            (chk + 1)) ∧
    (s2Loop cands geometry false th maxD (d :: rest) i comp used tiles chk
        = s2Loop cands geometry false th maxD rest (i + 1)
            (some (s2Layer cands d comp)) (used ++ [d])
            (tiles + (cands.filter (fun im => date_only im = d)).length)
            (chk + 1)) ∧
    (get_most_recent_sentinel2_auckland_ee catalog geometry now days_back
        cloud_cover_max false th maxD).reason ≠ S2Reason.fullCoverage ∧
    (s2Candidates catalog geometry now days_back cloud_cover_max ≠ [] →
      th ≤ check_coverage
          (dayMosaic (s2Candidates catalog geometry now days_back
            cloud_cover_max)
            ((s2UniqueDates (s2Candidates catalog geometry now days_back
              cloud_cover_max)).headD 0)) geometry →
      (get_most_recent_sentinel2_auckland_ee catalog geometry now days_back
        cloud_cover_max true th maxD).reason = S2Reason.fullCoverage ∧
      (get_most_recent_sentinel2_auckland_ee catalog geometry now days_back
        cloud_cover_max true th maxD).datesUsed
        = [(s2UniqueDates (s2Candidates catalog geometry now days_back
            cloud_cover_max)).headD 0]) := by
  refine ⟨fun h1 => s2Loop_step_exit cands geometry th maxD d rest i comp used
      tiles chk hi h1,
    fun hlt => s2Loop_step_continue cands geometry true th maxD d rest i comp
      used tiles chk hi (Or.inr hlt),
    s2Loop_step_continue cands geometry false th maxD d rest i comp used tiles
      chk hi (Or.inl rfl), ?_, ?_⟩
  · simp only [get_most_recent_sentinel2_auckland_ee]
    split
    · simp
    · exact s2Loop_reason_ne_full_not_required _ geometry th maxD _ 0 none []
        0 0
  · intro hne hcov
    set cands0 := s2Candidates catalog geometry now days_back cloud_cover_max
      with hcands0
    obtain ⟨d0, rest0, hd⟩ : ∃ d0 rest0, s2UniqueDates cands0 = d0 :: rest0 := by
      cases h : s2UniqueDates cands0 with
      | nil => exact absurd h (s2UniqueDates_ne_nil cands0 hne)
      | cons a b => exact ⟨a, b, rfl⟩
    rw [hd] at hcov
    simp only [List.headD_cons] at hcov
    have hcov2 : th ≤ check_coverage (s2Layer cands0 d0 none) geometry := by
      simpa [s2Layer] using hcov
    simp only [get_most_recent_sentinel2_auckland_ee]
    rw [if_neg (by simpa [List.length_eq_zero] using hne)]
    rw [← hcands0, hd]
    rw [s2Loop_step_exit cands0 geometry th maxD d0 rest0 0 none [] 0 0
      (by omega) hcov2]
    refine ⟨rfl, ?_⟩
    simp

/-- Witness for C5 (amended) at a concrete catalog whose most recent date
covers the whole region: iteration 1 of the loop exits immediately with
`require_full_coverage` True, continues with it False, and the builder run
with `require_full_coverage` False never reports the full-coverage early
exit. -/
theorem threshold_early_exit_witness :
    (0 : Nat) < 14 ∧
    (s2Loop
        [⟨518400000, 0, "IW", "ASCENDING", [0], fun _ => some 1⟩,
         ⟨432000000, 0, "IW", "ASCENDING", [0], fun _ => some 2⟩]
        ⟨[0], fun _ => 1, 1⟩ true (19/20) 14 [6, 5] 0 none [] 0 0
      = ⟨some (s2Layer
            [⟨518400000, 0, "IW", "ASCENDING", [0], fun _ => some 1⟩,
             ⟨432000000, 0, "IW", "ASCENDING", [0], fun _ => some 2⟩] 6 none),
          S2Reason.fullCoverage, [] ++ [6],
          0 + (([⟨518400000, 0, "IW", "ASCENDING", [0], fun _ => some 1⟩,
             ⟨432000000, 0, "IW", "ASCENDING", [0],
               fun _ => some 2⟩] : List EEImage).filter
            (fun im => date_only im = 6)).length,
          some (check_coverage (s2Layer
            [⟨518400000, 0, "IW", "ASCENDING", [0], fun _ => some 1⟩,
             ⟨432000000, 0, "IW", "ASCENDING", [0], fun _ => some 2⟩] 6 none)
            ⟨[0], fun _ => 1, 1⟩), 0 + 1⟩) ∧
    (s2Loop
        [⟨518400000, 0, "IW", "ASCENDING", [0], fun _ => some 1⟩,
         ⟨432000000, 0, "IW", "ASCENDING", [0], fun _ => some 2⟩]
        ⟨[0], fun _ => 1, 1⟩ false (19/20) 14 [6, 5] 0 none [] 0 0
      = s2Loop
        [⟨518400000, 0, "IW", "ASCENDING", [0], fun _ => some 1⟩,
         ⟨432000000, 0, "IW", "ASCENDING", [0], fun _ => some 2⟩]
        ⟨[0], fun _ => 1, 1⟩ false (19/20) 14 [5] (0 + 1)
        (some (s2Layer
          [⟨518400000, 0, "IW", "ASCENDING", [0], fun _ => some 1⟩,
           ⟨432000000, 0, "IW", "ASCENDING", [0], fun _ => some 2⟩] 6 none))
        ([] ++ [6])
        (0 + (([⟨518400000, 0, "IW", "ASCENDING", [0], fun _ => some 1⟩,
           ⟨432000000, 0, "IW", "ASCENDING", [0],
             fun _ => some 2⟩] : List EEImage).filter
          (fun im => date_only im = 6)).length) (0 + 1)) ∧
    (get_most_recent_sentinel2_auckland_ee
        [⟨518400000, 0, "IW", "ASCENDING", [0], fun _ => some 1⟩,
         ⟨432000000, 0, "IW", "ASCENDING", [0], fun _ => some 2⟩]
        ⟨[0], fun _ => 1, 1⟩ 864000000 10 30 false (19/20) 14).reason
      ≠ S2Reason.fullCoverage ∧
    (get_most_recent_sentinel2_auckland_ee
        [⟨518400000, 0, "IW", "ASCENDING", [0], fun _ => some 1⟩,
         ⟨432000000, 0, "IW", "ASCENDING", [0], fun _ => some 2⟩]
        ⟨[0], fun _ => 1, 1⟩ 864000000 10 30 true (19/20) 14).reason
      = S2Reason.fullCoverage ∧
    (get_most_recent_sentinel2_auckland_ee
        [⟨518400000, 0, "IW", "ASCENDING", [0], fun _ => some 1⟩,
         ⟨432000000, 0, "IW", "ASCENDING", [0], fun _ => some 2⟩]
        ⟨[0], fun _ => 1, 1⟩ 864000000 10 30 true (19/20) 14).datesUsed
      = [(s2UniqueDates (s2Candidates
          [⟨518400000, 0, "IW", "ASCENDING", [0], fun _ => some 1⟩,
           ⟨432000000, 0, "IW", "ASCENDING", [0], fun _ => some 2⟩]
          ⟨[0], fun _ => 1, 1⟩ 864000000 10 30)).headD 0] := by
  have h := threshold_early_exit
    [⟨518400000, 0, "IW", "ASCENDING", [0], fun _ => some 1⟩,
     ⟨432000000, 0, "IW", "ASCENDING", [0], fun _ => some 2⟩]
    [⟨518400000, 0, "IW", "ASCENDING", [0], fun _ => some 1⟩,
     ⟨432000000, 0, "IW", "ASCENDING", [0], fun _ => some 2⟩]
    ⟨[0], fun _ => 1, 1⟩ 864000000 10 30 (19/20) 14 0 6 [5] none [] 0 0
    (by decide)
  have h5 := h.2.2.2.2
    (fun hc =>
      absurd (congrArg List.length hc) (by with_unfolding_all decide))
    (by with_unfolding_all decide)
  exact ⟨by decide, h.1 (by with_unfolding_all decide), h.2.2.1, h.2.2.2.1,
    h5.1, h5.2⟩

end GetNewestData

namespace GetNewestData

theorem s2Loop_datesUsed_take (cands : List EEImage) (geometry : Geometry)
    (rf : Bool) (th : ℚ) (maxD : Nat) :
    ∀ (dates : List Nat) (i : Nat) (comp : Option Image) (used : List Nat)
      (tiles chk : Nat), ∃ k,
      (s2Loop cands geometry rf th maxD dates i comp used tiles chk).datesUsed
        = used ++ dates.take k := by
  intro dates
  induction dates with
  | nil =>
    intro i comp used tiles chk
    exact ⟨0, by simp [s2Loop, s2AfterLoop_datesUsed]⟩
  | cons d rest ih =>
    intro i comp used tiles chk
    simp only [s2Loop]
    split
    · exact ⟨0, by simp [s2AfterLoop_datesUsed]⟩
    · split
      · exact ⟨1, by simp⟩
      · obtain ⟨k, hk⟩ := ih (i + 1) _ _ _ _
        refine ⟨k + 1, ?_⟩
        rw [hk]
        simp [List.take_succ_cons]

theorem s2UniqueDates_strictDesc (cands : List EEImage) :
    List.Pairwise (fun a b => b < a) (s2UniqueDates cands) := by
  have hsorted : List.Sorted (fun a b => a ≤ b)
      (List.insertionSort (fun a b => a ≤ b) ((cands.map date_only).dedup)) :=
    List.sorted_insertionSort (fun a b => a ≤ b) _
  have hnodup : (List.insertionSort (fun a b => a ≤ b)
      ((cands.map date_only).dedup)).Nodup :=
    (List.perm_insertionSort (fun a b => a ≤ b) _).nodup_iff.mpr
      (List.nodup_dedup _)
  have hrev_le : List.Pairwise (fun a b => b ≤ a)
      (s2UniqueDates cands) := by
    rw [s2UniqueDates, List.pairwise_reverse]
    exact hsorted
  have hrev_ne : List.Pairwise (fun a b : Nat => a ≠ b)
      (s2UniqueDates cands) := by
    rw [s2UniqueDates]
    exact (List.nodup_reverse.mpr hnodup)
  exact (hrev_le.and hrev_ne).imp
    (fun h => lt_of_le_of_ne h.1 (Ne.symm h.2))

/-- C6: the Sentinel-2 builder is deterministic — two runs over equal frozen
catalog snapshots with identical parameters produce identical results — and
the candidate groups are layered in a deterministic, strictly descending date
order (`dates_used` is strictly decreasing). -/
theorem build_deterministic (catalog catalog2 : List EEImage)
    (geometry : Geometry) (now days_back : Nat) (cloud_cover_max : ℚ)
    (rf : Bool) (th : ℚ) (maxD : Nat) (hcat : catalog = catalog2) :
    get_most_recent_sentinel2_auckland_ee catalog geometry now days_back
        cloud_cover_max rf th maxD
      = get_most_recent_sentinel2_auckland_ee catalog2 geometry now days_back
        cloud_cover_max rf th maxD ∧
    List.Pairwise (fun a b => b < a)
      (get_most_recent_sentinel2_auckland_ee catalog geometry now days_back
        cloud_cover_max rf th maxD).datesUsed := by
  subst hcat
  refine ⟨rfl, ?_⟩
  simp only [get_most_recent_sentinel2_auckland_ee]
  split
  · simp
  · obtain ⟨k, hk⟩ := s2Loop_datesUsed_take
      (s2Candidates catalog geometry now days_back cloud_cover_max) geometry
      rf th maxD
      (s2UniqueDates (s2Candidates catalog geometry now days_back
        cloud_cover_max)) 0 none [] 0 0
    rw [hk]
    simp only [List.nil_append]
    exact (s2UniqueDates_strictDesc _).sublist (List.take_sublist _ _)

/-- Witness for C6 at a concrete two-image catalog (equal snapshots). -/
theorem build_deterministic_witness :
    get_most_recent_sentinel2_auckland_ee
        [⟨518400000, 0, "IW", "ASCENDING", [0], fun _ => some 1⟩,
         ⟨432000000, 0, "IW", "ASCENDING", [0], fun _ => some 2⟩]
        ⟨[0], fun _ => 1, 1⟩ 864000000 10 30 false (19/20) 14
      = get_most_recent_sentinel2_auckland_ee
        [⟨518400000, 0, "IW", "ASCENDING", [0], fun _ => some 1⟩,
         ⟨432000000, 0, "IW", "ASCENDING", [0], fun _ => some 2⟩]
        ⟨[0], fun _ => 1, 1⟩ 864000000 10 30 false (19/20) 14 ∧
    List.Pairwise (fun a b => b < a)
      (get_most_recent_sentinel2_auckland_ee
        [⟨518400000, 0, "IW", "ASCENDING", [0], fun _ => some 1⟩,
         ⟨432000000, 0, "IW", "ASCENDING", [0], fun _ => some 2⟩]
        ⟨[0], fun _ => 1, 1⟩ 864000000 10 30 false (19/20) 14).datesUsed :=
  build_deterministic
    [⟨518400000, 0, "IW", "ASCENDING", [0], fun _ => some 1⟩,
     ⟨432000000, 0, "IW", "ASCENDING", [0], fun _ => some 2⟩]
    [⟨518400000, 0, "IW", "ASCENDING", [0], fun _ => some 1⟩,
     ⟨432000000, 0, "IW", "ASCENDING", [0], fun _ => some 2⟩]
    ⟨[0], fun _ => 1, 1⟩ 864000000 10 30 false (19/20) 14 rfl

/-- C7: `check_coverage` returns exactly the sum of valid-pixel areas over the
region divided by the geometry's true area; the result is nonnegative, is at
most `1` whenever the sampled valid area does not exceed the true area, and
*can* exceed `1` when the sampled area overshoots the independently computed
`geometry.area` — so callers must clamp. -/
theorem check_coverage_spec (image : Image) (geometry : Geometry)
    (hA : ∀ i ∈ geometry.cells, 0 ≤ geometry.pixelArea i)
    (hpos : 0 < geometry.area) :
    check_coverage image geometry = validArea image geometry / geometry.area ∧
    0 ≤ check_coverage image geometry ∧
    (validArea image geometry ≤ geometry.area →
      check_coverage image geometry ≤ 1) ∧
    ∃ (im2 : Image) (g2 : Geometry), (∀ i ∈ g2.cells, 0 ≤ g2.pixelArea i) ∧
      0 < g2.area ∧ 1 < check_coverage im2 g2 := by
  have hnum : 0 ≤ validArea image geometry := by
    apply List.sum_nonneg
    intro x hx
    simp only [validArea, List.mem_map] at hx
    obtain ⟨i, hi, rfl⟩ := hx
    have := hA i hi
    by_cases h : (image i).isSome <;> simp [h]
    linarith
  refine ⟨rfl, ?_, ?_, ?_⟩
  · exact div_nonneg hnum hpos.le
  · intro h
    exact (div_le_one hpos).mpr h
  · refine ⟨fun _ => some 0, ⟨[0], fun _ => 2, 1⟩, ?_, ?_, ?_⟩
    · intro i _; norm_num
    · norm_num
    · show (1 : ℚ) < check_coverage (fun _ => some 0) ⟨[0], fun _ => 2, 1⟩
      with_unfolding_all decide

/-- Witness for C7 at a concrete image and geometry. -/
theorem check_coverage_spec_witness :
    (check_coverage (fun _ => some 7) ⟨[0, 1], fun _ => 1, 2⟩
        = validArea (fun _ => some 7) ⟨[0, 1], fun _ => 1, 2⟩ / 2 ∧
      0 ≤ check_coverage (fun _ => some 7) ⟨[0, 1], fun _ => 1, 2⟩ ∧
      (validArea (fun _ => some 7) ⟨[0, 1], fun _ => 1, 2⟩ ≤ 2 →
        check_coverage (fun _ => some 7) ⟨[0, 1], fun _ => 1, 2⟩ ≤ 1) ∧
      ∃ (im2 : Image) (g2 : Geometry),
        (∀ i ∈ g2.cells, 0 ≤ g2.pixelArea i) ∧ 0 < g2.area ∧
        1 < check_coverage im2 g2) :=
  check_coverage_spec (fun _ => some 7) ⟨[0, 1], fun _ => 1, 2⟩
    (by intro i _; norm_num) (by norm_num)

end GetNewestData

/-! ## Theorems about batch patch processing -/

namespace HDF5Test

theorem countP_add_countP_not {α : Type} (p : α → Bool) (l : List α) :
    l.countP p + l.countP (fun a => !(p a)) = l.length := by
  induction l with
  | nil => simp
  | cons a t ih => by_cases h : p a <;> simp [List.countP_cons, h] <;> omega

theorem batch_results_getElem (outcomes : List (Except String Unit))
    (k : Nat) :
    (batch_process_patches outcomes).results[k]?
      = (outcomes[k]?).map (fun o => process_single_patch o k) := by
  simp [batch_process_patches, List.getElem?_map, List.getElem?_enum,
    Option.map_map]
  rfl

/-- C8: per-patch failures in batch processing are isolated — the batch
result has one entry per patch (nothing aborts), a failing patch is reported
as `(index, success = False, message)`, every patch is counted (completed +
failed covers the whole batch), and changing one patch's outcome never changes
any other patch's result. -/
theorem patch_failure_isolated (outcomes : List (Except String Unit))
    (j : Nat) (e : String)
    (hfail : outcomes[j]? = some (Except.error e)) :
    (batch_process_patches outcomes).results.length = outcomes.length ∧
    (batch_process_patches outcomes).results[j]?
      = some (j, false, "✗ Patch " ++ toString j ++ ": " ++ e) ∧
    (batch_process_patches outcomes).completed
        + (batch_process_patches outcomes).failed = outcomes.length ∧
    (∀ (outcomes2 : List (Except String Unit)) (k : Nat), k ≠ j →
      outcomes2[k]? = outcomes[k]? →
      (batch_process_patches outcomes2).results[k]?
        = (batch_process_patches outcomes).results[k]?) := by
  refine ⟨?_, ?_, ?_, ?_⟩
  · simp [batch_process_patches, List.enum_length]
  · rw [batch_results_getElem, hfail]; rfl
  · have hlen : (batch_process_patches outcomes).results.length
        = outcomes.length := by
      simp [batch_process_patches, List.enum_length]
    calc (batch_process_patches outcomes).completed
          + (batch_process_patches outcomes).failed
        = (batch_process_patches outcomes).results.length :=
          countP_add_countP_not _ _
      _ = outcomes.length := hlen
  · intro outcomes2 k _ hk
    rw [batch_results_getElem, batch_results_getElem, hk]

/-- Witness for C8: a three-patch batch whose middle patch raises. -/
theorem patch_failure_isolated_witness :
    ([Except.ok (), Except.error "boom",
        Except.ok ()] : List (Except String Unit))[1]?
      = some (Except.error "boom") ∧
    ((batch_process_patches [Except.ok (), Except.error "boom",
        Except.ok ()]).results.length = 3 ∧
      (batch_process_patches [Except.ok (), Except.error "boom",
        Except.ok ()]).results[1]?
        = some (1, false, "✗ Patch " ++ toString 1 ++ ": " ++ "boom") ∧
      (batch_process_patches [Except.ok (), Except.error "boom",
          Except.ok ()]).completed
        + (batch_process_patches [Except.ok (), Except.error "boom",
          Except.ok ()]).failed = 3 ∧
      (∀ (outcomes2 : List (Except String Unit)) (k : Nat), k ≠ 1 →
        outcomes2[k]? = ([Except.ok (), Except.error "boom",
          Except.ok ()] : List (Except String Unit))[k]? →
        (batch_process_patches outcomes2).results[k]?
          = (batch_process_patches [Except.ok (), Except.error "boom",
            Except.ok ()]).results[k]?)) :=
  ⟨rfl, patch_failure_isolated [Except.ok (), Except.error "boom",
    Except.ok ()] 1 "boom" rfl⟩

end HDF5Test

/-! ## Theorems about the cleaning/normalization pipeline -/

namespace CleaningNormalise

theorem foldl_min_le_init (x : ℚ) (xs : List ℚ) : xs.foldl min x ≤ x := by
  induction xs generalizing x with
  | nil => simp
  | cons y ys ih => exact le_trans (ih (min x y)) (min_le_left x y)

theorem init_le_foldl_max (x : ℚ) (xs : List ℚ) : x ≤ xs.foldl max x := by
  induction xs generalizing x with
  | nil => simp
  | cons y ys ih => exact le_trans (le_max_left x y) (ih (max x y))

theorem npMin_le_npMax (l : List ℚ) : npMin l ≤ npMax l := by
  cases l with
  | nil => simp [npMin, npMax]
  | cons x xs =>
    exact le_trans (foldl_min_le_init x xs) (init_le_foldl_max x xs)

theorem iqrBounds_lt (l : List ℚ) : (iqrBounds l).1 < (iqrBounds l).2 := by
  simp only [iqrBounds]
  split
  · next h => simp only; linarith
  · split
    · simp only; linarith
    · next h2 =>
      simp only
      exact lt_of_le_of_ne (npMin_le_npMax l) (fun heq => h2 heq.symm)

theorem pctBounds_lt (l : List ℚ) : (pctBounds l).1 < (pctBounds l).2 := by
  simp only [pctBounds]
  split
  · simp only; linarith
  · next h => simp only; exact not_le.mp h

theorem rescale_mem (lower upper eps x : ℚ) (hlt : lower < upper)
    (heps : 0 ≤ eps) :
    0 ≤ rescale lower upper eps x ∧ rescale lower upper eps x ≤ 1 := by
  have hclip_lo : lower ≤ clipQ x lower upper := by
    simp only [clipQ]
    exact le_min (le_max_right x lower) hlt.le
  have hclip_hi : clipQ x lower upper ≤ upper := min_le_right _ _
  have hden : 0 < upper - lower + eps := by linarith
  constructor
  · apply div_nonneg _ hden.le
    linarith
  · simp only [rescale]
    rw [div_le_one hden]
    linarith

theorem cleanVals_map_some_getD (l : List (Option ℚ)) :
    cleanVals (l.map (fun x => some (x.getD 0))) = cleanVals l := by
  simp [cleanVals, List.map_map, Function.comp]

theorem robust_normalize_clean_first (arr : List (List (Option ℚ)))
    (axis : Bool) (method : String) :
    robust_normalize (arr.map (List.map (fun x => some (x.getD 0)))) axis
        method
      = robust_normalize arr axis method := by
  have h : (arr.map (List.map (fun x => some (x.getD 0)))).map cleanVals
      = arr.map cleanVals := by
    rw [List.map_map]
    apply List.map_congr_left
    intro l _
    exact cleanVals_map_some_getD l
  simp only [robust_normalize]
  rw [h]

theorem robust_normalize_mem_unit (arr : List (List (Option ℚ)))
    (axis : Bool) (m : String) (hm : m = "iqr" ∨ m = "percentile") :
    ∀ row ∈ robust_normalize arr axis m, ∀ q ∈ row, 0 ≤ q ∧ q ≤ 1 := by
  intro row hrow q hq
  rcases hm with rfl | rfl
  · simp only [robust_normalize] at hrow
    rw [if_pos trivial] at hrow
    cases axis with
    | false =>
      rw [if_pos rfl] at hrow
      by_cases hlen : 0 < ((arr.map cleanVals).flatten).length
      · rw [if_pos hlen] at hrow
        obtain ⟨r0, _, rfl⟩ := List.mem_map.mp hrow
        obtain ⟨x, _, rfl⟩ := List.mem_map.mp hq
        exact rescale_mem _ _ _ x (iqrBounds_lt _) (by norm_num)
      · rw [if_neg hlen] at hrow
        have hnil : (arr.map cleanVals).flatten = [] :=
          List.eq_nil_of_length_eq_zero (Nat.eq_zero_of_not_pos hlen)
        have hrow0 : row = [] := List.flatten_eq_nil_iff.mp hnil row hrow
        subst hrow0
        simp at hq
    | true =>
      rw [if_neg (by decide)] at hrow
      obtain ⟨chan, _, rfl⟩ := List.mem_map.mp hrow
      by_cases hlen : 0 < chan.length
      · rw [if_pos hlen] at hq
        obtain ⟨x, _, rfl⟩ := List.mem_map.mp hq
        exact rescale_mem _ _ _ x (iqrBounds_lt _) (by norm_num)
      · rw [if_neg hlen] at hq
        have hnil : chan = [] :=
          List.eq_nil_of_length_eq_zero (Nat.eq_zero_of_not_pos hlen)
        subst hnil
        simp at hq
  · simp only [robust_normalize] at hrow
    rw [if_neg (show ¬("percentile" = "iqr") by decide), if_pos trivial]
      at hrow
    cases axis with
    | false =>
      rw [if_pos rfl] at hrow
      by_cases hlen : 0 < ((arr.map cleanVals).flatten).length
      · rw [if_pos hlen] at hrow
        obtain ⟨r0, _, rfl⟩ := List.mem_map.mp hrow
        obtain ⟨x, _, rfl⟩ := List.mem_map.mp hq
        exact rescale_mem _ _ _ x (pctBounds_lt _) le_rfl
      · rw [if_neg hlen] at hrow
        have hnil : (arr.map cleanVals).flatten = [] :=
          List.eq_nil_of_length_eq_zero (Nat.eq_zero_of_not_pos hlen)
        have hrow0 : row = [] := List.flatten_eq_nil_iff.mp hnil row hrow
        subst hrow0
        simp at hq
    | true =>
      rw [if_neg (by decide)] at hrow
      obtain ⟨chan, _, rfl⟩ := List.mem_map.mp hrow
      obtain ⟨x, _, rfl⟩ := List.mem_map.mp hq
      exact rescale_mem _ _ _ x (pctBounds_lt _) le_rfl

/-- C9: `DataCleaner.robust_normalize` with method `iqr` or `percentile`
first replaces every non-finite value with `0` (running it on the
already-replaced array gives the same result), and every element of the
returned (float32) array lies in `[0, 1]` — globally or per channel. -/
theorem robust_normalize_unit_interval (arr : List (List (Option ℚ)))
    (axis : Bool) :
    (robust_normalize (arr.map (List.map (fun x => some (x.getD 0)))) axis
        "iqr" = robust_normalize arr axis "iqr" ∧
      ∀ row ∈ robust_normalize arr axis "iqr", ∀ q ∈ row, 0 ≤ q ∧ q ≤ 1) ∧
    (robust_normalize (arr.map (List.map (fun x => some (x.getD 0)))) axis
        "percentile" = robust_normalize arr axis "percentile" ∧
      ∀ row ∈ robust_normalize arr axis "percentile", ∀ q ∈ row,
        0 ≤ q ∧ q ≤ 1) :=
  ⟨⟨robust_normalize_clean_first arr axis "iqr",
    robust_normalize_mem_unit arr axis "iqr" (Or.inl rfl)⟩,
   ⟨robust_normalize_clean_first arr axis "percentile",
    robust_normalize_mem_unit arr axis "percentile" (Or.inr rfl)⟩⟩

end CleaningNormalise

namespace CleaningNormalise

theorem mkMat_length (h w : Nat) (f : Nat → Nat → Bool) :
    (mkMat h w f).length = h := by
  simp [mkMat]

theorem mkMat_row_length (h w : Nat) (f : Nat → Nat → Bool) :
    ∀ row ∈ mkMat h w f, row.length = w := by
  intro row hrow
  simp only [mkMat, List.mem_map] at hrow
  obtain ⟨i, _, rfl⟩ := hrow
  simp

theorem clean_mask_shape (mask : List (List ℚ)) (b : Bool) (r : ℚ) :
    (clean_mask mask b r).length = mask.length ∧
    (∀ row ∈ clean_mask mask b r, row.length = (mask.headD []).length) ∧
    (∀ row ∈ clean_mask mask b r, ∀ x ∈ row, x = 0 ∨ x = 1) := by
  simp only [clean_mask, erode]
  refine ⟨?_, ?_, ?_⟩
  · rw [List.length_map, mkMat_length]
  · intro row hrow
    obtain ⟨r0, hr0, rfl⟩ := List.mem_map.mp hrow
    rw [List.length_map]
    exact mkMat_row_length _ _ _ r0 hr0
  · intro row hrow x hx
    obtain ⟨r0, _, rfl⟩ := List.mem_map.mp hrow
    obtain ⟨b0, _, rfl⟩ := List.mem_map.mp hx
    cases b0 <;> simp

/-- C10: `DataCleaner.clean_mask` returns, for every rectangular 2-D numeric
mask (any dtype kind, binarized at `0.5` for floats and at `0` otherwise), a
matrix of the same shape whose entries are only `0` or `1` — the model of the
final `astype(np.uint8)` of a boolean raster. -/
theorem clean_mask_binary_shape (mask : List (List ℚ)) (isFloat : Bool)
    (ratio : ℚ) (w : Nat) (hrect : ∀ row ∈ mask, row.length = w) :
    (clean_mask mask isFloat ratio).length = mask.length ∧
    (∀ row ∈ clean_mask mask isFloat ratio, row.length = w) ∧
    (∀ row ∈ clean_mask mask isFloat ratio, ∀ x ∈ row, x = 0 ∨ x = 1) := by
  obtain ⟨hlen, hrows, hbin⟩ := clean_mask_shape mask isFloat ratio
  refine ⟨hlen, ?_, hbin⟩
  intro row hrow
  rw [hrows row hrow]
  cases mask with
  | nil =>
    have hnil : clean_mask ([] : List (List ℚ)) isFloat ratio = [] :=
      List.eq_nil_of_length_eq_zero (by simpa using hlen)
    rw [hnil] at hrow
    simp at hrow
  | cons m rest =>
    simp only [List.headD_cons]
    exact hrect m (by simp)

/-- Witness for C10 at a concrete 2×2 float mask. -/
theorem clean_mask_binary_shape_witness :
    (∀ row ∈ [[(1 : ℚ), 0], [0, 1]], row.length = 2) ∧
    ((clean_mask [[(1 : ℚ), 0], [0, 1]] true (1/1000)).length = 2 ∧
      (∀ row ∈ clean_mask [[(1 : ℚ), 0], [0, 1]] true (1/1000),
        row.length = 2) ∧
      (∀ row ∈ clean_mask [[(1 : ℚ), 0], [0, 1]] true (1/1000), ∀ x ∈ row,
        x = 0 ∨ x = 1)) :=
  ⟨by intro row hrow; rcases List.mem_cons.mp hrow with rfl | h; rfl;
      rcases List.mem_cons.mp h with rfl | h2; rfl; simp at h2,
   clean_mask_binary_shape [[(1 : ℚ), 0], [0, 1]] true (1/1000) 2
    (by intro row hrow; rcases List.mem_cons.mp hrow with rfl | h; rfl;
        rcases List.mem_cons.mp h with rfl | h2; rfl; simp at h2)⟩

end CleaningNormalise
